import Mathlib

/-!
# LFO editor geometry (`Source/LFOEditor.h`)

A shallow embedding of the point / handle model of the LFO curve editor.

* `float` coordinates are read as exact rationals (`ℚ`).
* `int` coordinates are unbounded integers (`ℤ`); C++ integer division is
  truncating division (`Int.tdiv`).
* C++ member functions that mutate `this` become functions returning the
  updated object.
* Objects reached through pointers live in an explicit store indexed by
  their address.
-/

namespace WTSynth

/-! ## `juce::Point<float>` -/

/-- The alias `fPoint = juce::Point<float>`, with exact coordinates. -/
structure fPoint where
  x : ℚ
  y : ℚ
deriving DecidableEq

/-! ## `class LFOPoint` -/

/-- The private data members of `LFOPoint`.  The constructor initialises only
`xPos`, `yPos`, `bezier` and `split`; the four handle coordinates hold whatever
was there, so they are ordinary fields of the state. -/
structure LFOPoint where
  xPos : ℚ
  yPos : ℚ
  bezier : Bool
  split : Bool
  frontHandleX : ℚ
  frontHandleY : ℚ
  rearHandleX : ℚ
  rearHandleY : ℚ
deriving DecidableEq

namespace LFOPoint

/-- Member `LFOPoint::setFrontHandle(float newX, float newY)`. -/
def setFrontHandle (p : LFOPoint) (newX newY : ℚ) : LFOPoint :=
  let p1 := { p with frontHandleX := newX }
  let p2 := { p1 with frontHandleY := newY }
  if !p2.split then
    let dX := newX - p2.xPos
    let dY := newY - p2.yPos
    let p3 := { p2 with rearHandleX := p2.xPos - dX }
    { p3 with rearHandleY := p3.yPos - dY }
  else
    p2

/-- Member `LFOPoint::setRearHandle(float newX, float newY)`. -/
def setRearHandle (p : LFOPoint) (newX newY : ℚ) : LFOPoint :=
  let p1 := { p with rearHandleX := newX }
  let p2 := { p1 with rearHandleY := newY }
  if !p2.split then
    let dX := p2.xPos - newX
    let dY := p2.yPos - newY
    let p3 := { p2 with frontHandleX := p2.xPos + dX }
    { p3 with frontHandleY := p3.yPos + dY }
  else
    p2

/-- Member `LFOPoint::setPosition(float newX, float newY)`.  The first call passes
`yPos + dX` as the front handle's ordinate, exactly as the source does. -/
def setPosition (p : LFOPoint) (newX newY : ℚ) : LFOPoint :=
  let dX := newX - p.xPos
  let dY := newY - p.yPos
  let p1 := { p with yPos := newY }
  let p2 := { p1 with xPos := newX }
  if p2.bezier then
    let p3 := p2.setFrontHandle (p2.xPos + dX) (p2.yPos + dX)
    p3.setRearHandle (p3.xPos - dX) (p3.yPos - dY)
  else
    p2

/-- Member `LFOPoint::getCenter()`. -/
def getCenter (p : LFOPoint) : fPoint := ⟨p.xPos, p.yPos⟩

/-- Member `LFOPoint::getFront()`. -/
def getFront (p : LFOPoint) : fPoint := ⟨p.frontHandleX, p.frontHandleY⟩

/-- Member `LFOPoint::getRear()`. -/
def getRear (p : LFOPoint) : fPoint := ⟨p.rearHandleX, p.rearHandleY⟩

/-- Member `LFOPoint::isBezier()`. -/
def isBezier (p : LFOPoint) : Bool := p.bezier

/-- Member `LFOPoint::setBezier(bool should)`. -/
def setBezier (p : LFOPoint) (should : Bool) : LFOPoint := { p with bezier := should }

/-- Member `LFOPoint::setSplit(bool should)`. -/
def setSplit (p : LFOPoint) (should : Bool) : LFOPoint := { p with split := should }

end LFOPoint

/-! ## Toolkit geometry: `juce::Point<int>` and `juce::Rectangle<int>` -/

/-- The toolkit's `juce::Point<int>`. -/
structure iPoint where
  x : ℤ
  y : ℤ
deriving DecidableEq

/-- Member `Point<int>::toFloat()`: the same coordinates as floats. -/
def iPoint.toFloat (p : iPoint) : fPoint := ⟨(p.x : ℚ), (p.y : ℚ)⟩

/-- Member `Point<float>::operator/ (Point<float>)`: component-wise quotient. -/
def fPoint.div (a b : fPoint) : fPoint := ⟨a.x / b.x, a.y / b.y⟩

/-- The toolkit's `juce::Rectangle<int>`: top-left corner, width and height. -/
structure Rectangle where
  x : ℤ
  y : ℤ
  w : ℤ
  h : ℤ
deriving DecidableEq

/-- Member `Rectangle<int>::getCentre()`: `(x + w / 2, y + h / 2)` in `int`
arithmetic, so the halves are truncated. -/
def Rectangle.getCentre (r : Rectangle) : iPoint :=
  ⟨r.x + Int.tdiv r.w 2, r.y + Int.tdiv r.h 2⟩

/-! ## Toolkit components

Components are C++ objects referred to by address.  The part of a
`juce::Component` the editor reads is its bounds and its parent pointer. -/

/-- Address of a component object. -/
abbrev CompId := ℕ

/-- The state of a `juce::Component` that `PointHandle` reads. -/
structure Component where
  bounds : Rectangle
  parentComponent : Option CompId
deriving DecidableEq

/-- The store of live components, by address. -/
abbrev World := CompId → Component

/-- Member `Component::getBounds()`. -/
def Component.getBounds (c : Component) : Rectangle := c.bounds

/-- Member `Component::getWidth()`. -/
def Component.getWidth (c : Component) : ℤ := c.bounds.w

/-- Member `Component::getHeight()`. -/
def Component.getHeight (c : Component) : ℤ := c.bounds.h

/-- Member `Component::getParentWidth()`: the width of the immediate parent, or of
the monitor area the component sits on when it has no parent. -/
def Component.getParentWidth (wd : World) (monitor : Rectangle) (c : Component) : ℤ :=
  match c.parentComponent with
  | some p => (wd p).getWidth
  | none => monitor.w

/-- Member `Component::getParentHeight()`: as `getParentWidth`, for the height. -/
def Component.getParentHeight (wd : World) (monitor : Rectangle) (c : Component) : ℤ :=
  match c.parentComponent with
  | some p => (wd p).getHeight
  | none => monitor.h

/-! ## Mouse events and the dragger -/

/-- What the editor passes on of a `juce::MouseEvent`: it is handed unchanged
to the dragger. -/
structure MouseEvent where
  x : ℤ
  y : ℤ
  mouseDownX : ℤ
  mouseDownY : ℤ
deriving DecidableEq

/-- A call made on a handle's `juce::ComponentDragger` member.  `owner` is the
handle whose `dragger` (and, for `dragComponent`, whose `constrainer`) member
is used; `target` is the component passed as the one to drag. -/
inductive DraggerCall where
  | startDraggingComponent (owner target : CompId) (e : MouseEvent)
  | dragComponent (owner target : CompId) (e : MouseEvent) (constrainerOf : CompId)
deriving DecidableEq

/-! ## `class PointHandle` -/

/-- The data members of `PointHandle`; `self` is the object's address
(`this`).  Its `juce::Component` base lives in the `World` at `self`. -/
structure PointHandle where
  self : CompId
  dX : ℤ
  parentComp : Option CompId
  relativeCenter : fPoint
deriving DecidableEq

namespace PointHandle

/-- The constructor `PointHandle(parent, x, y)`: `dX(0)`, `parentComp(parent)`,
`relativeCenter(fPoint(x, y))`. -/
def new (self : CompId) (parent : Option CompId) (x y : ℚ) : PointHandle :=
  { self := self, dX := 0, parentComp := parent, relativeCenter := ⟨x, y⟩ }

/-- Member `PointHandle::mouseDown`: `dragger.startDraggingComponent(this, e)`. -/
def mouseDown (h : PointHandle) (e : MouseEvent) : List DraggerCall :=
  [DraggerCall.startDraggingComponent h.self h.self e]

/-- Member `PointHandle::mouseDrag`: `dragger.dragComponent(this, e, &constrainer)`. -/
def mouseDrag (h : PointHandle) (e : MouseEvent) : List DraggerCall :=
  [DraggerCall.dragComponent h.self h.self e h.self]

/-- Member `PointHandle::startDrag`: `dragger.startDraggingComponent(this, e)`. -/
def startDrag (h : PointHandle) (e : MouseEvent) : List DraggerCall :=
  [DraggerCall.startDraggingComponent h.self h.self e]

/-- Member `PointHandle::drag`: `dragger.dragComponent(this, e, &constrainer)`. -/
def drag (h : PointHandle) (e : MouseEvent) : List DraggerCall :=
  [DraggerCall.dragComponent h.self h.self e h.self]

/-- Member `PointHandle::moved()`. -/
def moved (wd : World) (monitor : Rectangle) (h : PointHandle) : PointHandle :=
  let this := wd h.self
  match h.parentComp with
  | none =>
    let size : iPoint := ⟨this.getParentWidth wd monitor, this.getParentHeight wd monitor⟩
    { h with relativeCenter := fPoint.div this.getBounds.getCentre.toFloat size.toFloat }
  | some pc =>
    let size : iPoint := ⟨(wd pc).getWidth, (wd pc).getHeight⟩
    { h with relativeCenter := fPoint.div this.getBounds.getCentre.toFloat size.toFloat }

/-- Member `PointHandle::getCenter()`. -/
def getCenter (h : PointHandle) : fPoint := h.relativeCenter

/-- Member `PointHandle::setCenter(float x, float y)`. -/
def setCenter (h : PointHandle) (x y : ℚ) : PointHandle :=
  { h with relativeCenter := ⟨x, y⟩ }

end PointHandle

/-! ## `class CenterHandle` -/

/-- A `CenterHandle` is a `PointHandle` with the two pointers `frontComp` and
`rearComp` (`none` is `nullptr`). -/
structure CenterHandle extends PointHandle where
  frontComp : Option PointHandle
  rearComp : Option PointHandle
deriving DecidableEq

namespace CenterHandle

/-- The constructor `CenterHandle(front, rear, container, x, y)`. -/
def new (self : CompId) (front rear : Option PointHandle) (container : Option CompId)
    (x y : ℚ) : CenterHandle :=
  { toPointHandle := PointHandle.new self container x y, frontComp := front, rearComp := rear }

/-- Member `CenterHandle::mouseDown`: the calls issued, in program order. -/
def mouseDown (c : CenterHandle) (e : MouseEvent) : List DraggerCall :=
  let t0 := [DraggerCall.startDraggingComponent c.self c.self e]
  let t1 := match c.frontComp with
    | some f => t0 ++ f.startDrag e
    | none => t0
  match c.rearComp with
  | some r => t1 ++ r.startDrag e
  | none => t1

/-- Member `CenterHandle::mouseDrag`: the calls issued, in program order. -/
def mouseDrag (c : CenterHandle) (e : MouseEvent) : List DraggerCall :=
  let t0 := [DraggerCall.dragComponent c.self c.self e c.self]
  let t1 := match c.frontComp with
    | some f => t0 ++ f.drag e
    | none => t0
  match c.rearComp with
  | some r => t1 ++ r.drag e
  | none => t1

end CenterHandle

/-! ## `class LFOShape` -/

/-- Modelled from the spec: the type `lfoArray` is declared in `LFO.h`, which
is not among the sources.  The spec calls it "a fixed-size numeric array"; here
it is the sequence of its samples, and its size is the sequence's length. -/
abbrev lfoArray := List ℚ

/-- Address of an `LFOPoint` object (`LFOPoint*`). -/
abbrev PointAddr := ℕ

/-- The store of live `LFOPoint` objects, by address. -/
abbrev PointStore := PointAddr → LFOPoint

/-- The data members of `LFOShape`. -/
structure LFOShape where
  points : List PointAddr
  outputArray : lfoArray
deriving DecidableEq

/-- The slot-by-slot write loop
`for (i = lo; i < lo + count; ++i) arr[i] = f (i);` on an array. -/
def writeSlots (f : ℕ → ℚ) (lo : ℕ) : ℕ → lfoArray → lfoArray
  | 0, arr => arr
  | k + 1, arr => (writeSlots f lo k arr).set (lo + k) (f (lo + k))

namespace LFOShape

/-- Member `LFOShape::addPoint`: `points.push_back(newPoint)`. -/
def addPoint (s : LFOShape) (newPoint : PointAddr) : LFOShape :=
  { s with points := s.points ++ [newPoint] }

/-- The range-for loop of `LFOShape::removePoint`: `all` is the whole vector,
the list argument is what is left to visit and `idx` counts the visited ones.
On the first match the element at `idx` is erased and the function returns. -/
def removePointLoop (toRemove : PointAddr) (all : List PointAddr) :
    List PointAddr → ℕ → List PointAddr
  | [], _ => all
  | point :: rest, idx =>
    if point = toRemove then all.eraseIdx idx
    else removePointLoop toRemove all rest (idx + 1)

/-- Member `LFOShape::removePoint`. -/
def removePoint (s : LFOShape) (toRemove : PointAddr) : LFOShape :=
  { s with points := removePointLoop toRemove s.points s.points 0 }

/-- Modelled from the spec: the body of `LFOShape::applyToArray` is not among
the sources (only its declaration is).  Following the spec, the curve through
the control points "is then sampled into a fixed-size numeric array": slot `i`
of the `n` slots of `outputArray` receives the curve's value at phase `i / n`.
The interpolant `curve` is a parameter. -/
def applyToArray (curve : List LFOPoint → ℚ → ℚ) (store : PointStore)
    (s : LFOShape) : LFOShape :=
  let n := s.outputArray.length
  let pts := s.points.map store
  { s with outputArray :=
      writeSlots (fun i => curve pts ((i : ℚ) / (n : ℚ))) 0 n s.outputArray }

end LFOShape

/-- An edit of a shape's control points: a point is added, removed, or moved
(through the `LFOPoint` setters, which act on the pointed-to object). -/
inductive ShapeEdit where
  | addPoint (p : PointAddr)
  | removePoint (p : PointAddr)
  | setPosition (p : PointAddr) (newX newY : ℚ)
  | setFrontHandle (p : PointAddr) (newX newY : ℚ)
  | setRearHandle (p : PointAddr) (newX newY : ℚ)
deriving DecidableEq

/-- One edit, on the point store and the shape. -/
def ShapeEdit.apply : ShapeEdit → PointStore × LFOShape → PointStore × LFOShape
  | .addPoint p, (store, s) => (store, s.addPoint p)
  | .removePoint p, (store, s) => (store, s.removePoint p)
  | .setPosition p x y, (store, s) =>
      (Function.update store p ((store p).setPosition x y), s)
  | .setFrontHandle p x y, (store, s) =>
      (Function.update store p ((store p).setFrontHandle x y), s)
  | .setRearHandle p x y, (store, s) =>
      (Function.update store p ((store p).setRearHandle x y), s)

/-- A sequence of edits, applied first to last. -/
def applyEdits (edits : List ShapeEdit) (st : PointStore × LFOShape) :
    PointStore × LFOShape :=
  edits.foldl (fun acc ed => ed.apply acc) st

/-! ## `class LFOEditor` -/

/-- A `juce::Path` as the editor builds it: the points it runs through. -/
abbrev Path := List fPoint

/-- The data members of `LFOEditor` that path reconstruction touches.
`linkedArray` holds the array the pointer `linkedArray` refers to. -/
structure LFOEditor where
  startPoint : LFOPoint
  endPoint : LFOPoint
  pointHandles : List CenterHandle
  paths : List Path
  linkedArray : lfoArray
  dataArray : lfoArray
deriving DecidableEq

/-- Modelled from the spec: how `LFOEditor` reads a control point off a centre
handle is in `LFOEditor.cpp`, which is not among the sources.  The point sits at
the handle's relative centre and is a bezier point when both optional handles
are present, with its handles at theirs. -/
def CenterHandle.toPoint (c : CenterHandle) : LFOPoint :=
  let ctr := c.getCenter
  let front := (c.frontComp.map PointHandle.getCenter).getD ctr
  let rear := (c.rearComp.map PointHandle.getCenter).getD ctr
  { xPos := ctr.x, yPos := ctr.y,
    bezier := c.frontComp.isSome && c.rearComp.isSome, split := false,
    frontHandleX := front.x, frontHandleY := front.y,
    rearHandleX := rear.x, rearHandleY := rear.y }

namespace LFOEditor

/-- Modelled from the spec: the body of `LFOEditor::connectPoints` is not among
the sources; its declaration carries the comment "sets the array's values for
this sector of the shape, ensures the corrects paths are drawn".  The sector
between the two points is the slots from `⌊first.x * n⌋` up to `⌊second.x * n⌋`;
each is written in the data array and in the linked array with the value of the
segment's interpolant `segment` (a parameter), and the segment's path is added. -/
def connectPoints (segment : LFOPoint → LFOPoint → ℚ → ℚ) (ed : LFOEditor)
    (first second : LFOPoint) : LFOEditor :=
  let n := ed.dataArray.length
  let lo := Int.toNat ⌊first.getCenter.x * (n : ℚ)⌋
  let hi := Int.toNat ⌊second.getCenter.x * (n : ℚ)⌋
  let f : ℕ → ℚ := fun i => segment first second ((i : ℚ) / (n : ℚ))
  { ed with
    dataArray := writeSlots f lo (hi - lo) ed.dataArray
    linkedArray := writeSlots f lo (hi - lo) ed.linkedArray
    paths := ed.paths ++ [[first.getCenter, second.getCenter]] }

/-- Connects each control point with the next one, first to last. -/
def connectAll (segment : LFOPoint → LFOPoint → ℚ → ℚ) :
    LFOEditor → List LFOPoint → LFOEditor
  | ed, a :: b :: rest => connectAll segment (connectPoints segment ed a b) (b :: rest)
  | ed, _ => ed

/-- Modelled from the spec: the body of `LFOEditor::calculatePaths` is not among
the sources.  Following the spec's "path-reconstruction algorithm that rebuilds
an interpolated curve and resamples it into a fixed-length output array", the
paths are discarded and the control points, from the start point through the
handles to the end point, are connected pairwise. -/
def calculatePaths (segment : LFOPoint → LFOPoint → ℚ → ℚ) (ed : LFOEditor) : LFOEditor :=
  connectAll segment { ed with paths := [] }
    (ed.startPoint :: (ed.pointHandles.map CenterHandle.toPoint ++ [ed.endPoint]))

end LFOEditor

/-! ## A concrete scene

A handle at address `1` with bounds `(10, 20, 9, 7)`, inside the component at
address `2` of size `100 × 50`, itself inside the component at address `3` of
size `200 × 100`. -/

/-- The component store of the concrete scene. -/
def sceneWorld : World := fun i =>
  if i = 1 then ⟨⟨10, 20, 9, 7⟩, some 2⟩
  else if i = 2 then ⟨⟨0, 0, 100, 50⟩, some 3⟩
  else ⟨⟨0, 0, 200, 100⟩, none⟩

/-- The monitor area of the concrete scene. -/
def sceneMonitor : Rectangle := ⟨0, 0, 1920, 1080⟩

/-! ## Theorems -/

/-! ### Auxiliary lemmas -/

theorem writeSlots_length (f : ℕ → ℚ) (lo count : ℕ) (arr : lfoArray) :
    (writeSlots f lo count arr).length = arr.length := by
  induction count with
  | zero => rfl
  | succ k ih => simp [writeSlots, ih]

theorem ShapeEdit.apply_outputArray (e : ShapeEdit) (st : PointStore × LFOShape) :
    (e.apply st).2.outputArray = st.2.outputArray := by
  obtain ⟨store, s⟩ := st
  cases e <;> rfl

theorem applyEdits_outputArray (edits : List ShapeEdit) (st : PointStore × LFOShape) :
    (applyEdits edits st).2.outputArray = st.2.outputArray := by
  induction edits generalizing st with
  | nil => rfl
  | cons e rest ih =>
    have h := ih (e.apply st)
    simp only [applyEdits, List.foldl_cons] at h ⊢
    rw [h, ShapeEdit.apply_outputArray]

theorem LFOEditor.connectPoints_lengths (segment : LFOPoint → LFOPoint → ℚ → ℚ)
    (ed : LFOEditor) (a b : LFOPoint) :
    (ed.connectPoints segment a b).dataArray.length = ed.dataArray.length ∧
    (ed.connectPoints segment a b).linkedArray.length = ed.linkedArray.length := by
  simp [LFOEditor.connectPoints, writeSlots_length]

theorem LFOEditor.connectAll_lengths (segment : LFOPoint → LFOPoint → ℚ → ℚ)
    (pts : List LFOPoint) (ed : LFOEditor) :
    (LFOEditor.connectAll segment ed pts).dataArray.length = ed.dataArray.length ∧
    (LFOEditor.connectAll segment ed pts).linkedArray.length = ed.linkedArray.length := by
  induction pts generalizing ed with
  | nil => simp [LFOEditor.connectAll]
  | cons a rest ih =>
    cases rest with
    | nil => simp [LFOEditor.connectAll]
    | cons b rest =>
      have h := ih (ed.connectPoints segment a b)
      have hc := LFOEditor.connectPoints_lengths segment ed a b
      simp only [LFOEditor.connectAll]
      exact ⟨h.1.trans hc.1, h.2.trans hc.2⟩

/-! ### The claims -/

/-- C1: the sampled array keeps its length.  After any sequence of edits of
the control points (added, removed, moved) followed by `LFOShape.applyToArray`,
`outputArray` has the length it had before; and `LFOEditor.calculatePaths` and
`LFOEditor.connectPoints` leave the lengths of `dataArray` and of the linked
array as they were, for every editor state and every interpolant. -/
theorem sampled_array_length_fixed :
    (∀ (curve : List LFOPoint → ℚ → ℚ) (store : PointStore) (s : LFOShape)
        (edits : List ShapeEdit),
        ((applyEdits edits (store, s)).2.applyToArray curve
            (applyEdits edits (store, s)).1).outputArray.length
          = s.outputArray.length) ∧
    (∀ (segment : LFOPoint → LFOPoint → ℚ → ℚ) (ed : LFOEditor),
        (ed.calculatePaths segment).dataArray.length = ed.dataArray.length ∧
        (ed.calculatePaths segment).linkedArray.length = ed.linkedArray.length) ∧
    (∀ (segment : LFOPoint → LFOPoint → ℚ → ℚ) (ed : LFOEditor) (first second : LFOPoint),
        (ed.connectPoints segment first second).dataArray.length = ed.dataArray.length ∧
        (ed.connectPoints segment first second).linkedArray.length
          = ed.linkedArray.length) := by
  refine ⟨?_, ?_, ?_⟩
  · intro curve store s edits
    have h := applyEdits_outputArray edits (store, s)
    simp only [LFOShape.applyToArray, writeSlots_length]
    rw [h]
  · intro segment ed
    exact LFOEditor.connectAll_lengths segment _ { ed with paths := [] }
  · intro segment ed first second
    exact LFOEditor.connectPoints_lengths segment ed first second

/-- C2: `PointHandle.moved` takes the relative centre against the higher-level
component when one is given.  If `parentComp` is the component `c`, or if
`parentComp` is null and the immediate parent is `c`, then after `moved` the
handle's `getCenter` is the centre of its bounds divided component-wise by the
width and height of `c`. -/
theorem moved_center_relative (wd : World) (monitor : Rectangle) (h : PointHandle)
    (c : CompId)
    (hc : h.parentComp = some c ∨
      (h.parentComp = none ∧ (wd h.self).parentComponent = some c)) :
    (h.moved wd monitor).getCenter =
      ⟨((wd h.self).getBounds.getCentre.x : ℚ) / ((wd c).getWidth : ℚ),
       ((wd h.self).getBounds.getCentre.y : ℚ) / ((wd c).getHeight : ℚ)⟩ := by
  rcases hc with hc | ⟨hn, hp⟩
  · simp [PointHandle.moved, PointHandle.getCenter, hc, fPoint.div, iPoint.toFloat]
  · simp [PointHandle.moved, PointHandle.getCenter, hn, hp, fPoint.div, iPoint.toFloat,
      Component.getParentWidth, Component.getParentHeight]



/-- Witness for C2, on the concrete scene: the handle's bounds `(10, 20, 9, 7)`
have centre `(10 + 9 / 2, 20 + 7 / 2) = (14, 23)` in `int` arithmetic; with the higher-level component `3` given the relative centre is
`(14/200, 23/100)`, and with none given it is `(14/100, 23/50)`, against the
immediate parent `2`. -/
theorem moved_center_relative_witness :
    ((PointHandle.new 1 (some 3) (1/2) (1/2)).parentComp = some 3 ∧
      ((PointHandle.new 1 (some 3) (1/2) (1/2)).moved sceneWorld sceneMonitor).getCenter
        = ⟨14 / 200, 23 / 100⟩) ∧
    (((PointHandle.new 1 none (1/2) (1/2)).parentComp = none ∧
        (sceneWorld (PointHandle.new 1 none (1/2) (1/2)).self).parentComponent = some 2) ∧
      ((PointHandle.new 1 none (1/2) (1/2)).moved sceneWorld sceneMonitor).getCenter
        = ⟨14 / 100, 23 / 50⟩) :=
  ⟨⟨rfl, (moved_center_relative sceneWorld sceneMonitor
      (PointHandle.new 1 (some 3) (1/2) (1/2)) 3 (Or.inl rfl)).trans
      (by norm_num [sceneWorld, PointHandle.new, Component.getBounds, Rectangle.getCentre,
        Component.getWidth, Component.getHeight, Int.tdiv])⟩,
   ⟨⟨rfl, rfl⟩, (moved_center_relative sceneWorld sceneMonitor
      (PointHandle.new 1 none (1/2) (1/2)) 2 (Or.inr ⟨rfl, rfl⟩)).trans
      (by norm_num [sceneWorld, PointHandle.new, Component.getBounds, Rectangle.getCentre,
        Component.getWidth, Component.getHeight, Int.tdiv])⟩⟩

/-- C3: for a point whose bezier flag is false, `setPosition newX newY` makes
`getCenter` equal to `(newX, newY)` and leaves the front handle, the rear
handle, the bezier flag and the split flag as they were. -/
theorem setPosition_linear_frame (p : LFOPoint) (newX newY : ℚ)
    (hb : p.bezier = false) :
    (p.setPosition newX newY).getCenter = ⟨newX, newY⟩ ∧
    (p.setPosition newX newY).getFront = p.getFront ∧
    (p.setPosition newX newY).getRear = p.getRear ∧
    (p.setPosition newX newY).bezier = p.bezier ∧
    (p.setPosition newX newY).split = p.split := by
  simp [LFOPoint.setPosition, LFOPoint.getCenter, LFOPoint.getFront,
    LFOPoint.getRear, hb]

/-- Witness for C3: a linear point at `(1/4, 1/2)` with handles `(1, 2)` and
`(3, 4)`, moved to `(3/4, 1/8)`. -/
theorem setPosition_linear_frame_witness :
    (LFOPoint.mk (1/4) (1/2) false false 1 2 3 4).bezier = false ∧
    ((LFOPoint.mk (1/4) (1/2) false false 1 2 3 4).setPosition (3/4) (1/8)).getCenter
      = ⟨3/4, 1/8⟩ ∧
    ((LFOPoint.mk (1/4) (1/2) false false 1 2 3 4).setPosition (3/4) (1/8)).getFront
      = ⟨1, 2⟩ ∧
    ((LFOPoint.mk (1/4) (1/2) false false 1 2 3 4).setPosition (3/4) (1/8)).getRear
      = ⟨3, 4⟩ ∧
    ((LFOPoint.mk (1/4) (1/2) false false 1 2 3 4).setPosition (3/4) (1/8)).bezier
      = false ∧
    ((LFOPoint.mk (1/4) (1/2) false false 1 2 3 4).setPosition (3/4) (1/8)).split
      = false :=
  ⟨rfl, setPosition_linear_frame (LFOPoint.mk (1/4) (1/2) false false 1 2 3 4)
    (3/4) (1/8) rfl⟩

/-- C4: dragging a centre handle drags its optional handles with it.
`mouseDown` issues the start-drag call for the handle itself, then the one of
`frontComp` if it is non-null, then the one of `rearComp` if it is non-null;
`mouseDrag` issues the drag calls in the same order; and a centre handle with
both pointers null issues exactly the calls of `PointHandle.mouseDown` and
`PointHandle.mouseDrag`. -/
theorem centerHandle_drags_optional_handles (e : MouseEvent) :
    (∀ c : CenterHandle,
      c.mouseDown e =
        c.toPointHandle.startDrag e ++
          ((c.frontComp.toList ++ c.rearComp.toList).map fun h =>
            DraggerCall.startDraggingComponent h.self h.self e) ∧
      c.mouseDrag e =
        c.toPointHandle.drag e ++
          ((c.frontComp.toList ++ c.rearComp.toList).map fun h =>
            DraggerCall.dragComponent h.self h.self e h.self)) ∧
    (∀ h : PointHandle,
      (CenterHandle.mk h none none).mouseDown e = h.mouseDown e ∧
      (CenterHandle.mk h none none).mouseDrag e = h.mouseDrag e) := by
  refine ⟨?_, ?_⟩
  · intro c
    rcases c with ⟨h, front, rear⟩
    cases front <;> cases rear <;>
      simp [CenterHandle.mouseDown, CenterHandle.mouseDrag, PointHandle.startDrag,
        PointHandle.drag]
  · intro h
    exact ⟨rfl, rfl⟩

/-- C5, at a failing input: a split bezier point at `(0, 0)` is moved by
`setPosition 1 2`, so `dX = 1` and `dY = 2`.  The centre becomes `(1, 2)` and
the rear handle `(1 - dX, 2 - dY) = (0, 0)`, but the front handle becomes
`(2, 3) = (newX + dX, newY + dX)` and not `(2, 4) = (newX + dX, newY + dY)`. -/
theorem setPosition_split_bezier_front_ordinate :
    ((LFOPoint.mk 0 0 true true 0 0 0 0).setPosition 1 2).getCenter = ⟨1, 2⟩ ∧
    ((LFOPoint.mk 0 0 true true 0 0 0 0).setPosition 1 2).getRear = ⟨1 - 1, 2 - 2⟩ ∧
    ((LFOPoint.mk 0 0 true true 0 0 0 0).setPosition 1 2).getFront = ⟨2, 3⟩ ∧
    ((LFOPoint.mk 0 0 true true 0 0 0 0).setPosition 1 2).getFront ≠ ⟨1 + 1, 2 + 2⟩ := by
  norm_num [LFOPoint.setPosition, LFOPoint.setFrontHandle, LFOPoint.setRearHandle,
    LFOPoint.getCenter, LFOPoint.getFront, LFOPoint.getRear]

/-- C6: linked handles mirror each other through the centre.  For a point
whose split flag is false, `setFrontHandle x y` puts the front handle at
`(x, y)` and the rear handle at `(2 * cx - x, 2 * cy - y)`, and
`setRearHandle x y` puts the rear handle at `(x, y)` and the front handle at
`(2 * cx - x, 2 * cy - y)`; either way the centre `(cx, cy)` and both flags are
unchanged, and the centre is the midpoint of the two handles. -/
theorem linked_handles_mirror (p : LFOPoint) (x y : ℚ) (hs : p.split = false) :
    ((p.setFrontHandle x y).getFront = ⟨x, y⟩ ∧
      (p.setFrontHandle x y).getRear = ⟨2 * p.xPos - x, 2 * p.yPos - y⟩ ∧
      (p.setFrontHandle x y).getCenter = p.getCenter ∧
      (p.setFrontHandle x y).bezier = p.bezier ∧
      (p.setFrontHandle x y).split = p.split ∧
      (p.setFrontHandle x y).getCenter =
        ⟨((p.setFrontHandle x y).getFront.x + (p.setFrontHandle x y).getRear.x) / 2,
         ((p.setFrontHandle x y).getFront.y + (p.setFrontHandle x y).getRear.y) / 2⟩) ∧
    ((p.setRearHandle x y).getRear = ⟨x, y⟩ ∧
      (p.setRearHandle x y).getFront = ⟨2 * p.xPos - x, 2 * p.yPos - y⟩ ∧
      (p.setRearHandle x y).getCenter = p.getCenter ∧
      (p.setRearHandle x y).bezier = p.bezier ∧
      (p.setRearHandle x y).split = p.split ∧
      (p.setRearHandle x y).getCenter =
        ⟨((p.setRearHandle x y).getFront.x + (p.setRearHandle x y).getRear.x) / 2,
         ((p.setRearHandle x y).getFront.y + (p.setRearHandle x y).getRear.y) / 2⟩) := by
  refine ⟨⟨?_, ?_, ?_, ?_, ?_, ?_⟩, ⟨?_, ?_, ?_, ?_, ?_, ?_⟩⟩ <;>
    simp [LFOPoint.setFrontHandle, LFOPoint.setRearHandle, LFOPoint.getFront,
      LFOPoint.getRear, LFOPoint.getCenter, hs] <;>
    constructor <;> ring

/-- Witness for C6: a linked point centred at `(1/2, 1/4)`; its front handle
set to `(3/4, 1)` sends the rear handle to `(1/4, -1/2)`. -/
theorem linked_handles_mirror_witness :
    (LFOPoint.mk (1/2) (1/4) true false 0 0 0 0).split = false ∧
    ((LFOPoint.mk (1/2) (1/4) true false 0 0 0 0).setFrontHandle (3/4) 1).getFront
      = ⟨3/4, 1⟩ ∧
    ((LFOPoint.mk (1/2) (1/4) true false 0 0 0 0).setFrontHandle (3/4) 1).getRear
      = ⟨1/4, -1/2⟩ :=
  have h := linked_handles_mirror (LFOPoint.mk (1/2) (1/4) true false 0 0 0 0) (3/4) 1 rfl
  ⟨rfl, h.1.1, h.1.2.1.trans (by norm_num)⟩

/-! ### Further facts about `setPosition` on bezier points -/

/-- On a bezier point whose handles are linked (split flag false), the final
call to `setRearHandle` re-derives the front handle by mirroring, so both
handles end up displaced by `(dX, dY)` from the new centre. -/
theorem setPosition_bezier_linked (p : LFOPoint) (newX newY : ℚ)
    (hb : p.bezier = true) (hs : p.split = false) :
    (p.setPosition newX newY).getCenter = ⟨newX, newY⟩ ∧
    (p.setPosition newX newY).getFront =
      ⟨newX + (newX - p.xPos), newY + (newY - p.yPos)⟩ ∧
    (p.setPosition newX newY).getRear =
      ⟨newX - (newX - p.xPos), newY - (newY - p.yPos)⟩ := by
  simp [LFOPoint.setPosition, LFOPoint.setFrontHandle, LFOPoint.setRearHandle,
    LFOPoint.getFront, LFOPoint.getRear, LFOPoint.getCenter, hb, hs]

/-- On a split bezier point the front handle keeps what the first call gave
it: its ordinate is `newY + dX`. -/
theorem setPosition_bezier_split (p : LFOPoint) (newX newY : ℚ)
    (hb : p.bezier = true) (hs : p.split = true) :
    (p.setPosition newX newY).getCenter = ⟨newX, newY⟩ ∧
    (p.setPosition newX newY).getFront =
      ⟨newX + (newX - p.xPos), newY + (newX - p.xPos)⟩ ∧
    (p.setPosition newX newY).getRear =
      ⟨newX - (newX - p.xPos), newY - (newY - p.yPos)⟩ := by
  simp [LFOPoint.setPosition, LFOPoint.setFrontHandle, LFOPoint.setRearHandle,
    LFOPoint.getFront, LFOPoint.getRear, LFOPoint.getCenter, hb, hs]

end WTSynth
